import Mathlib

/-!
Verification of the expr-eval-secure safe expression evaluator

This file embeds, in Lean 4, the two safe-evaluator wrappers of the
repository (`src/lib/safe-evaluator.js` and the unnamed wrapper variant in
`src/unnamed/part_000`) together with a model of the underlying expression
language core (tokenizer, parser, stack evaluator).  The core itself
(`dist/bundle`, the expr-eval fork) is not part of the source tree, so it is
modelled from the specification, constrained by the test
suites (`src/test/security.js`, `src/unnamed/part_002`, `src/unnamed/part_003`),
which pin down observable behaviour such as:

* calls to names absent from the function registry parse successfully and are
  reported by the identifier check of the wrappers (`Unknown identifier "max"`), and
  fail at evaluation time when the callee name is covered by the binding map;
* identifiers associated with prototype/ancestry metadata (`__proto__`,
  `prototype`, `constructor`) are rejected during parsing with the error
  `prototype access detected`;
* local function definitions (`fndef`) evaluate in a per-evaluation local
  scope and may only call registry functions or other local functions.

JavaScript numbers are modelled as integers (`Int`); floating-point values
(decimal literals, non-integral quotients, `NaN`/`Infinity`, the float
constants `PI`/`E`) are outside the model — no claim depends on them, and
both wrapper embeddings share the same arithmetic model, so their
comparison is unaffected.
-/

/-- A JavaScript value, as far as the data model of the evaluator reaches:
primitives (number, boolean, string, `null`, `undefined`), opaque host
callables, plain objects carrying their own enumerable properties, and
arrays. -/
inductive JSVal where
  | num (n : Int)
  | bool (b : Bool)
  | str (s : String)
  | null
  | undef
  | func (id : Nat)
  | obj (props : List (String × JSVal))
  | arr (elems : List JSVal)
  deriving Repr

/-- JavaScript `typeof`. Note `typeof null === "object"`. -/
def typeofJS : JSVal → String
  | .num _ => "number"
  | .bool _ => "boolean"
  | .str _ => "string"
  | .null => "object"
  | .undef => "undefined"
  | .func _ => "function"
  | .obj _ => "object"
  | .arr _ => "object"

/-- JavaScript truthiness (for `!v` and conditional tests). -/
def jsTruthy : JSVal → Bool
  | .num n => n ≠ 0
  | .bool b => b
  | .str s => s ≠ ""
  | .null => false
  | .undef => false
  | .func _ => true
  | .obj _ => true
  | .arr _ => true

def JSVal.isNull : JSVal → Bool
  | .null => true
  | _ => false

def JSVal.isUndef : JSVal → Bool
  | .undef => true
  | _ => false

def JSVal.isStr : JSVal → Bool
  | .str _ => true
  | _ => false

/-- `Array.isArray`. -/
def isArrayJS : JSVal → Bool
  | .arr _ => true
  | _ => false

/-- Strict equality `===` as used by the `==` operator of the expression language:
primitives compare by value, composite values (objects, arrays, functions)
are compared by reference, which two separately produced values never share,
so the model returns `false` for them. -/
def jsEq : JSVal → JSVal → Bool
  | .num a, .num b => a = b
  | .bool a, .bool b => a = b
  | .str a, .str b => a = b
  | .null, .null => true
  | .undef, .undef => true
  | _, _ => false

/-- The own enumerable properties of a value, as `for (const key in v)` with
an `Object.prototype.hasOwnProperty.call` guard observes them: the property
list of an object, the elements of an array keyed by their decimal indices, and
nothing for any other value. -/
def ownProps : JSVal → List (String × JSVal)
  | .obj props => props
  | .arr elems => (elems.enum.map fun p => (toString p.1, p.2))
  | _ => []

/-- `Object.prototype.hasOwnProperty.call(props, key)` on a property list. -/
def hasOwn (props : List (String × JSVal)) (key : String) : Bool :=
  props.any fun p => p.1 = key

/-- First value bound to `key` in a property list. -/
def lookupProp (props : List (String × JSVal)) (key : String) : Option JSVal :=
  (props.find? fun p => p.1 = key).map Prod.snd

/-! ## Tokenizer -/

/-- Modelled from the spec: lexical tokens of the Tokenizer (§4.1) of the
expression-language core, whose source (`dist/bundle`) is not in the
repository tree. Numbers, quoted strings, identifiers
`[A-Za-z_][A-Za-z0-9_]*`, greedily matched multi-character operators, and
punctuation. -/
inductive Tok where
  | num (n : Int)
  | str (s : String)
  | ident (s : String)
  | op (s : String)
  | lparen
  | rparen
  | lbracket
  | rbracket
  | comma
  | semicolon
  | question
  | colon
  | dot
  deriving Repr, DecidableEq

def isIdentStartCh (c : Char) : Bool := c.isAlpha || c = '_'

def isIdentCh (c : Char) : Bool := c.isAlphanum || c = '_'

/-- Split off a leading run of decimal digits. -/
def spanDigits : List Char → List Char × List Char
  | [] => ([], [])
  | c :: cs =>
    if c.isDigit then
      let p := spanDigits cs
      (c :: p.1, p.2)
    else ([], c :: cs)

/-- Split off a leading run of identifier characters. -/
def spanIdent : List Char → List Char × List Char
  | [] => ([], [])
  | c :: cs =>
    if isIdentCh c then
      let p := spanIdent cs
      (c :: p.1, p.2)
    else ([], c :: cs)

def digitsToNat (ds : List Char) : Nat :=
  ds.foldl (fun a c => a * 10 + (c.toNat - 48)) 0

/-- Read the body of a quoted string up to the closing quote `q`; a backslash
escapes the following character. Returns the content and the remainder. -/
def readQuoted (q : Char) : List Char → Option (List Char × List Char)
  | [] => none
  | c :: cs =>
    if c = q then some ([], cs)
    else if c = '\\' then
      match cs with
      | [] => none
      | d :: ds => (readQuoted q ds).map fun p => (d :: p.1, p.2)
    else (readQuoted q cs).map fun p => (c :: p.1, p.2)

/-- Identifier names associated with object-identity / prototype-ancestry
metadata, rejected during parsing (`prototype access detected`), as the test
`src/unnamed/part_003` (prototype pollution test) requires. -/
def protoDenylist : List String := ["__proto__", "prototype", "constructor"]

/-- Single-character operator and punctuation tokens. -/
def punctTok : Char → Option Tok
  | '(' => some .lparen
  | ')' => some .rparen
  | '[' => some .lbracket
  | ']' => some .rbracket
  | ',' => some .comma
  | ';' => some .semicolon
  | '?' => some .question
  | ':' => some .colon
  | '.' => some .dot
  | '+' => some (.op "+")
  | '-' => some (.op "-")
  | '*' => some (.op "*")
  | '/' => some (.op "/")
  | '%' => some (.op "%")
  | '^' => some (.op "^")
  | '<' => some (.op "<")
  | '>' => some (.op ">")
  | '=' => some (.op "=")
  | '!' => some (.op "!")
  | _ => none

/-- Modelled from the spec: the tokenizer loop of §4.1 of the missing core,
plus the parse-time rejection of prototype-ancestry names evidenced by the
tests of the repository. Fuel bounds the number of steps (every step
consumes at least one character, so `length + 1` fuel always suffices). -/
def tokenizeAux : Nat → List Char → Except String (List Tok)
  | 0, _ => .error "lexer fuel exhausted"
  | _ + 1, [] => .ok []
  | n + 1, c :: cs =>
    if c = ' ' ∨ c = '\t' ∨ c = '\n' ∨ c = '\r' then tokenizeAux n cs
    else if c.isDigit then
      let p := spanDigits (c :: cs)
      match p.2 with
      | '.' :: _ => .error "non-integer number literals are outside the integer model"
      | _ =>
        match tokenizeAux n p.2 with
        | .error e => .error e
        | .ok ts => .ok (.num (digitsToNat p.1) :: ts)
    else if isIdentStartCh c then
      let p := spanIdent (c :: cs)
      let name := String.mk p.1
      if name ∈ protoDenylist then .error "prototype access detected"
      else
        match tokenizeAux n p.2 with
        | .error e => .error e
        | .ok ts => .ok (.ident name :: ts)
    else if c = '"' ∨ c = Char.ofNat 39 then
      match readQuoted c cs with
      | none => .error "unterminated string"
      | some p =>
        match tokenizeAux n p.2 with
        | .error e => .error e
        | .ok ts => .ok (.str (String.mk p.1) :: ts)
    else
      match c, cs with
      | '=', '=' :: r =>
        match tokenizeAux n r with
        | .error e => .error e
        | .ok ts => .ok (.op "==" :: ts)
      | '!', '=' :: r =>
        match tokenizeAux n r with
        | .error e => .error e
        | .ok ts => .ok (.op "!=" :: ts)
      | '<', '=' :: r =>
        match tokenizeAux n r with
        | .error e => .error e
        | .ok ts => .ok (.op "<=" :: ts)
      | '>', '=' :: r =>
        match tokenizeAux n r with
        | .error e => .error e
        | .ok ts => .ok (.op ">=" :: ts)
      | '|', '|' :: r =>
        match tokenizeAux n r with
        | .error e => .error e
        | .ok ts => .ok (.op "||" :: ts)
      | _, _ =>
        match punctTok c with
        | some t =>
          match tokenizeAux n cs with
          | .error e => .error e
          | .ok ts => .ok (t :: ts)
        | none => .error ("unexpected character " ++ String.mk [c])

/-- Tokenize a source string. -/
def tokenize (s : String) : Except String (List Tok) :=
  tokenizeAux (s.length + 1) s.data

/-! ## Abstract syntax and parser -/

/-- Modelled from the spec: the abstract syntax of the expression language —
the Compiler output shapes (§3 Instruction, §4.2 grammar) of the missing
core, kept as a tree rather than a flat instruction list (the RPN form is a
linearization of this tree and has the same observable evaluation
behaviour). -/
inductive Expr where
  | lit (v : JSVal)
  | var (name : String)
  | unop (op : String) (e : Expr)
  | binop (op : String) (a b : Expr)
  | ternary (c t f : Expr)
  | call (callee : Expr) (args : List Expr)
  | fndef (name : String) (params : List String) (body : Expr)
  | arrLit (es : List Expr)
  | index (a i : Expr)
  | member (a : Expr) (field : String)
  | assign (name : String) (rhs : Expr)
  | seq (a b : Expr)
  deriving Repr

/-- Parser configuration: the registries/options the parser consults while
compiling — the unary-operator name table, the constants table (substituted
at parse time), and whether in-expression function definition (`fndef`) is
enabled. The function registry is not consulted at parse time (calls to
unknown names parse and fail later, as the tests of the repository require). -/
structure ParseCfg where
  unaryNames : List String
  consts : List (String × JSVal)
  fndef : Bool

def lookupConst (cs : List (String × JSVal)) (s : String) : Option JSVal :=
  (cs.find? fun p => p.1 = s).map Prod.snd

/-- Which binary operator symbols live at which precedence level
(3 = logical or … 9 = multiplicative), lowest binding power first,
per the precedence table of the spec (§4.2). -/
def binOpsAt : Nat → List String
  | 3 => ["or"]
  | 4 => ["and"]
  | 6 => ["in"]
  | 7 => ["==", "!=", "<", ">", "<=", ">="]
  | 8 => ["+", "-", "||"]
  | 9 => ["*", "/", "%"]
  | _ => []

/-- View a token as a binary-operator symbol (word operators are identifier
tokens). -/
def tokBinOp : Tok → Option String
  | .op s => some s
  | .ident s => if s = "or" ∨ s = "and" ∨ s = "in" then some s else none
  | _ => none

/-- Parameter names of a function-definition head `f(x, y, …)`: every
argument must be a bare identifier. -/
def paramNames : List Expr → Option (List String)
  | [] => some []
  | .var s :: rest => (paramNames rest).map fun ps => s :: ps
  | _ => none

/-- Turn `lhs = rhs` into an assignment or (with `fndef` enabled) a local
function definition, per the special forms of the spec (§4.2). -/
def mkAssign (cfg : ParseCfg) (l r : Expr) : Except String Expr :=
  match l with
  | .var name => .ok (.assign name r)
  | .call (.var f) args =>
    if cfg.fndef then
      match paramNames args with
      | some ps => .ok (.fndef f ps r)
      | none => .error "expected a variable in function definition"
    else .error "function definition is not permitted"
  | _ => .error "expected variable for assignment"

mutual

/-- Modelled from the spec: the Compiler (§4.2) of the missing core — a
precedence-climbing parser at a given level over a token list, with fuel,
following the precedence table of the spec: 0 sequence `;`, 1 assignment / function definition
(right-associative), 2 ternary, 3 or, 4 and, 5 unary not, 6 membership,
7 comparisons, 8 additive and concatenation, 9 multiplicative, 10 unary
prefix, 11 exponentiation (right-associative, binding tighter than unary
prefix), 12 postfix call/index/member and primaries. -/
def pExpr (cfg : ParseCfg) : Nat → Nat → List Tok → Except String (Expr × List Tok)
  | 0, _, _ => .error "parse fuel exhausted"
  | n + 1, 0, ts =>
    match pExpr cfg n 1 ts with
    | .error e => .error e
    | .ok p => pSeqRest cfg n p.1 p.2
  | n + 1, 1, ts =>
    match pExpr cfg n 2 ts with
    | .error e => .error e
    | .ok p =>
      match p.2 with
      | .op "=" :: rest =>
        match pExpr cfg n 1 rest with
        | .error e => .error e
        | .ok q =>
          match mkAssign cfg p.1 q.1 with
          | .error e => .error e
          | .ok e => .ok (e, q.2)
      | _ => .ok p
  | n + 1, 2, ts =>
    match pExpr cfg n 3 ts with
    | .error e => .error e
    | .ok p =>
      match p.2 with
      | .question :: rest =>
        match pExpr cfg n 2 rest with
        | .error e => .error e
        | .ok q =>
          match q.2 with
          | .colon :: rest2 =>
            match pExpr cfg n 2 rest2 with
            | .error e => .error e
            | .ok r => .ok (.ternary p.1 q.1 r.1, r.2)
          | _ => .error "expected : in conditional expression"
      | _ => .ok p
  | n + 1, 5, ts =>
    match ts with
    | .ident s :: rest =>
      if s = "not" ∧ s ∈ cfg.unaryNames then
        match pExpr cfg n 5 rest with
        | .error e => .error e
        | .ok p => .ok (.unop "not" p.1, p.2)
      else pExpr cfg n 6 ts
    | _ => pExpr cfg n 6 ts
  | n + 1, 10, ts =>
    match ts with
    | .op s :: rest =>
      if (s = "-" ∨ s = "+") ∧ s ∈ cfg.unaryNames then
        match pExpr cfg n 10 rest with
        | .error e => .error e
        | .ok p => .ok (.unop s p.1, p.2)
      else pExpr cfg n 11 ts
    | .ident s :: rest =>
      if s ≠ "not" ∧ s ∈ cfg.unaryNames then
        match pExpr cfg n 10 rest with
        | .error e => .error e
        | .ok p => .ok (.unop s p.1, p.2)
      else pExpr cfg n 11 ts
    | _ => pExpr cfg n 11 ts
  | n + 1, 11, ts =>
    match pExpr cfg n 12 ts with
    | .error e => .error e
    | .ok p =>
      match p.2 with
      | .op "^" :: rest =>
        match pExpr cfg n 10 rest with
        | .error e => .error e
        | .ok q => .ok (.binop "^" p.1 q.1, q.2)
      | _ => .ok p
  | n + 1, lvl, ts =>
    if lvl = 3 ∨ lvl = 4 ∨ lvl = 6 ∨ lvl = 7 ∨ lvl = 8 ∨ lvl = 9 then
      match pExpr cfg n (lvl + 1) ts with
      | .error e => .error e
      | .ok p => pChain cfg n lvl p.1 p.2
    else
      match pPrim cfg n ts with
      | .error e => .error e
      | .ok p => pPost cfg n p.1 p.2

/-- Remaining `; expr` statements of a sequence. -/
def pSeqRest (cfg : ParseCfg) : Nat → Expr → List Tok → Except String (Expr × List Tok)
  | 0, _, _ => .error "parse fuel exhausted"
  | n + 1, acc, ts =>
    match ts with
    | .semicolon :: rest =>
      match pExpr cfg n 1 rest with
      | .error e => .error e
      | .ok p => pSeqRest cfg n (.seq acc p.1) p.2
    | _ => .ok (acc, ts)

/-- Left-associative chain of binary operators at one precedence level. -/
def pChain (cfg : ParseCfg) : Nat → Nat → Expr → List Tok → Except String (Expr × List Tok)
  | 0, _, _, _ => .error "parse fuel exhausted"
  | n + 1, lvl, acc, ts =>
    match ts with
    | t :: rest =>
      match tokBinOp t with
      | some s =>
        if s ∈ binOpsAt lvl then
          match pExpr cfg n (lvl + 1) rest with
          | .error e => .error e
          | .ok p => pChain cfg n lvl (.binop s acc p.1) p.2
        else .ok (acc, ts)
      | none => .ok (acc, ts)
    | [] => .ok (acc, ts)

/-- Primary expressions: literals, identifiers (constants are substituted at
parse time from the constants registry), parenthesized expressions, and
array literals. -/
def pPrim (cfg : ParseCfg) : Nat → List Tok → Except String (Expr × List Tok)
  | 0, _ => .error "parse fuel exhausted"
  | _ + 1, [] => .error "unexpected end of expression"
  | n + 1, t :: rest =>
    match t with
    | .num q => .ok (.lit (.num q), rest)
    | .str s => .ok (.lit (.str s), rest)
    | .ident s =>
      match lookupConst cfg.consts s with
      | some v => .ok (.lit v, rest)
      | none => .ok (.var s, rest)
    | .lparen =>
      match pExpr cfg n 0 rest with
      | .error e => .error e
      | .ok p =>
        match p.2 with
        | .rparen :: rest2 => .ok (p.1, rest2)
        | _ => .error "expected )"
    | .lbracket =>
      match rest with
      | .rbracket :: rest2 => .ok (.arrLit [], rest2)
      | _ =>
        match pElems cfg n rest with
        | .error e => .error e
        | .ok p => .ok (.arrLit p.1, p.2)
    | _ => .error "unexpected token"

/-- Postfix chain: function call, indexing, member access (§4.2 level 13). -/
def pPost (cfg : ParseCfg) : Nat → Expr → List Tok → Except String (Expr × List Tok)
  | 0, _, _ => .error "parse fuel exhausted"
  | n + 1, acc, ts =>
    match ts with
    | .lparen :: .rparen :: rest => pPost cfg n (.call acc []) rest
    | .lparen :: rest =>
      match pArgs cfg n rest with
      | .error e => .error e
      | .ok p => pPost cfg n (.call acc p.1) p.2
    | .lbracket :: rest =>
      match pExpr cfg n 1 rest with
      | .error e => .error e
      | .ok p =>
        match p.2 with
        | .rbracket :: rest2 => pPost cfg n (.index acc p.1) rest2
        | _ => .error "expected ]"
    | .dot :: .ident f :: rest => pPost cfg n (.member acc f) rest
    | .dot :: _ => .error "expected identifier after ."
    | _ => .ok (acc, ts)

/-- Comma-separated argument list, consuming the closing `)`. -/
def pArgs (cfg : ParseCfg) : Nat → List Tok → Except String (List Expr × List Tok)
  | 0, _ => .error "parse fuel exhausted"
  | n + 1, ts =>
    match pExpr cfg n 1 ts with
    | .error e => .error e
    | .ok p =>
      match p.2 with
      | .comma :: rest =>
        match pArgs cfg n rest with
        | .error e => .error e
        | .ok q => .ok (p.1 :: q.1, q.2)
      | .rparen :: rest => .ok ([p.1], rest)
      | _ => .error "expected , or ) in argument list"

/-- Comma-separated array elements, consuming the closing `]`. -/
def pElems (cfg : ParseCfg) : Nat → List Tok → Except String (List Expr × List Tok)
  | 0, _ => .error "parse fuel exhausted"
  | n + 1, ts =>
    match pExpr cfg n 1 ts with
    | .error e => .error e
    | .ok p =>
      match p.2 with
      | .comma :: rest =>
        match pElems cfg n rest with
        | .error e => .error e
        | .ok q => .ok (p.1 :: q.1, q.2)
      | .rbracket :: rest => .ok ([p.1], rest)
      | _ => .error "expected , or ] in array literal"

end

/-- Parse a token list into an expression; leftover tokens are a parse
error (trailing input, §4.2 failure modes). -/
def parseToks (cfg : ParseCfg) (ts : List Tok) : Except String Expr :=
  match pExpr cfg (20 * ts.length + 20) 0 ts with
  | .error e => .error e
  | .ok p => if p.2 = [] then .ok p.1 else .error "unexpected trailing input"

/-- Parse a source string under a parser configuration (tokenize, then
precedence-climbing compile). -/
def parseStr (cfg : ParseCfg) (s : String) : Except String Expr :=
  match tokenize s with
  | .error e => .error e
  | .ok ts => parseToks cfg ts

/-! ## Evaluator -/

/-- A local in-expression function definition: parameter list and body
program (§3 DefineLocalFunction). -/
structure LocalFn where
  params : List String
  body : Expr

/-- Transient per-evaluation state (§3): the caller-supplied binding map
(`vars`, the mutable `values` object a JavaScript evaluator would receive),
the per-evaluation local scope that in-expression assignment writes to
(`locals`), and the currently-in-scope local function definitions (`fns`). -/
structure EvalSt where
  vars : List (String × JSVal)
  locals : List (String × JSVal)
  fns : List (String × LocalFn)

/-- A registry function implementation. -/
abbrev RegFn := List JSVal → Except String JSVal

/-- The function registry: the sole capability table call targets resolve
against (§4.4). -/
abbrev Registry := List (String × RegFn)

def lookupReg (reg : Registry) (f : String) : Option RegFn :=
  (reg.find? fun p => p.1 = f).map Prod.snd

def lookupLocalFn (fns : List (String × LocalFn)) (f : String) : Option LocalFn :=
  (fns.find? fun p => p.1 = f).map Prod.snd

/-- Variable lookup: the per-evaluation local scope shadows the binding
map of the caller; registries are never consulted (§4.3 LoadVariable). -/
def lookupVarVal (s : EvalSt) (name : String) : Option JSVal :=
  match lookupProp s.locals name with
  | some v => some v
  | none => lookupProp s.vars name

/-- Bind parameters to evaluated arguments; missing arguments become
`undefined`, extra arguments are dropped. -/
def bindParams : List String → List JSVal → List (String × JSVal)
  | [], _ => []
  | p :: ps, [] => (p, .undef) :: bindParams ps []
  | p :: ps, v :: vs => (p, v) :: bindParams ps vs

/-- Exponentiation by a natural number, written out so that it reduces
definitionally. -/
def intPow (b : Int) : Nat → Int
  | 0 => 1
  | n + 1 => b * intPow b n

/-- Modelled from the spec: the binary operator implementations of §4.3 of
the missing core (`and`/`or` are short-circuited in the evaluator and never
reach this table). JavaScript numbers are
rationals here, so float-only behaviours (non-integer exponents,
`Infinity` on division by zero) are modelled as evaluation errors, which
the spec prescribes for division by zero and type faults. -/
def applyBinop : String → JSVal → JSVal → Except String JSVal
  | "+", .num x, .num y => .ok (.num (x + y))
  | "+", .str x, .str y => .ok (.str (x ++ y))
  | "-", .num x, .num y => .ok (.num (x - y))
  | "*", .num x, .num y => .ok (.num (x * y))
  | "/", .num x, .num y =>
    if y = 0 then .error "division by zero"
    else if Int.tmod x y = 0 then .ok (.num (Int.tdiv x y))
    else .error "a non-integer quotient is outside the integer model"
  | "%", .num x, .num y =>
    if y = 0 then .error "modulo by zero" else .ok (.num (Int.tmod x y))
  | "^", .num x, .num y =>
    if 0 ≤ y then .ok (.num (intPow x y.toNat))
    else .error "a negative exponent is outside the integer model"
  | "==", x, y => .ok (.bool (jsEq x y))
  | "!=", x, y => .ok (.bool (! jsEq x y))
  | "<", .num x, .num y => .ok (.bool (decide (x < y)))
  | "<=", .num x, .num y => .ok (.bool (decide (x ≤ y)))
  | ">", .num x, .num y => .ok (.bool (decide (y < x)))
  | ">=", .num x, .num y => .ok (.bool (decide (y ≤ x)))
  | "||", .str x, .str y => .ok (.str (x ++ y))
  | "||", .arr x, .arr y => .ok (.arr (x ++ y))
  | "in", x, .arr ys => .ok (.bool (ys.any (jsEq x)))
  | op, _, _ => .error ("invalid operands for operator " ++ op)

/-- Unary operator implementations; transcendental operators are outside the
rational-number model and evaluate to errors (no claim exercises them). -/
def applyUnop : String → JSVal → Except String JSVal
  | "-", .num x => .ok (.num (-x))
  | "+", .num x => .ok (.num x)
  | "not", v => .ok (.bool (! jsTruthy v))
  | "abs", .num x => .ok (.num |x|)
  | "length", .arr xs => .ok (.num xs.length)
  | "length", .str s => .ok (.num s.length)
  | op, _ => .error ("unary operator " ++ op ++ " is not modelled")

/-- Indexing `a[i]`: requires an array and an in-bounds non-negative integer
index (§4.2 array literal / indexing). -/
def applyIndex : JSVal → JSVal → Except String JSVal
  | .arr xs, .num q =>
    if 0 ≤ q ∧ q < (xs.length : Int) then .ok (xs.getD q.toNat .undef)
    else .error "index out of bounds"
  | _, _ => .error "cannot index this value"

/-- Member access `a.b`: permitted only against values produced by the
expression language itself, with property names restricted to a bounded safe
set (§4.2); prototype-ancestry names were already rejected while parsing. -/
def applyMember : JSVal → String → Except String JSVal
  | .arr xs, "length" => .ok (.num xs.length)
  | _, _ => .error "member access is restricted"

mutual

/-- Modelled from the spec: the Evaluator (§4.3) of the missing core — a
single walk of the program against the registry frozen at compile time and
the per-evaluation state, producing a result (or typed failure) and the
final state. Fuel bounds recursion depth (local functions may
self-reference), failing closed as §5 prescribes.
`CallFunction` targets resolve only against the function registry and the
in-scope local function definitions — never against the binding map, so a
binding-supplied value is never invoked. Assignment writes to the
per-evaluation local scope, never to the binding map of the caller (§4.2). -/
def evalE (reg : Registry) : Nat → Expr → EvalSt → Except String JSVal × EvalSt
  | 0, _, s => (.error "evaluation fuel exhausted", s)
  | n + 1, e, s =>
    match e with
    | .lit v => (.ok v, s)
    | .var name =>
      match lookupVarVal s name with
      | some v => (.ok v, s)
      | none => (.error ("undefined variable: " ++ name), s)
    | .unop op a =>
      match evalE reg n a s with
      | (.error m, s₁) => (.error m, s₁)
      | (.ok v, s₁) => (applyUnop op v, s₁)
    | .binop op a b =>
      if op = "and" then
        match evalE reg n a s with
        | (.error m, s₁) => (.error m, s₁)
        | (.ok va, s₁) =>
          if jsTruthy va then
            match evalE reg n b s₁ with
            | (.error m, s₂) => (.error m, s₂)
            | (.ok vb, s₂) => (.ok (.bool (jsTruthy vb)), s₂)
          else (.ok (.bool false), s₁)
      else if op = "or" then
        match evalE reg n a s with
        | (.error m, s₁) => (.error m, s₁)
        | (.ok va, s₁) =>
          if jsTruthy va then (.ok (.bool true), s₁)
          else
            match evalE reg n b s₁ with
            | (.error m, s₂) => (.error m, s₂)
            | (.ok vb, s₂) => (.ok (.bool (jsTruthy vb)), s₂)
      else
        match evalE reg n a s with
        | (.error m, s₁) => (.error m, s₁)
        | (.ok va, s₁) =>
          match evalE reg n b s₁ with
          | (.error m, s₂) => (.error m, s₂)
          | (.ok vb, s₂) => (applyBinop op va vb, s₂)
    | .ternary c t f =>
      match evalE reg n c s with
      | (.error m, s₁) => (.error m, s₁)
      | (.ok vc, s₁) => if jsTruthy vc then evalE reg n t s₁ else evalE reg n f s₁
    | .call callee args =>
      match callee with
      | .var f =>
        match lookupReg reg f with
        | some fn =>
          match evalList reg n args s with
          | (.error m, s₁) => (.error m, s₁)
          | (.ok vs, s₁) => (fn vs, s₁)
        | none =>
          match lookupLocalFn s.fns f with
          | some lf =>
            match evalList reg n args s with
            | (.error m, s₁) => (.error m, s₁)
            | (.ok vs, s₁) => applyLocal reg n lf vs s₁
          | none => (.error ("unknown function: " ++ f), s)
      | .fndef f params body =>
        match evalList reg n args s with
        | (.error m, s₁) => (.error m, s₁)
        | (.ok vs, s₁) =>
          applyLocal reg n ⟨params, body⟩ vs
            { s₁ with fns := (f, ⟨params, body⟩) :: s₁.fns }
      | _ => (.error "expression is not a function", s)
    | .fndef f params body =>
      (.ok (.func 0), { s with fns := (f, ⟨params, body⟩) :: s.fns })
    | .arrLit es =>
      match evalList reg n es s with
      | (.error m, s₁) => (.error m, s₁)
      | (.ok vs, s₁) => (.ok (.arr vs), s₁)
    | .index a i =>
      match evalE reg n a s with
      | (.error m, s₁) => (.error m, s₁)
      | (.ok va, s₁) =>
        match evalE reg n i s₁ with
        | (.error m, s₂) => (.error m, s₂)
        | (.ok vi, s₂) => (applyIndex va vi, s₂)
    | .member a field =>
      match evalE reg n a s with
      | (.error m, s₁) => (.error m, s₁)
      | (.ok v, s₁) => (applyMember v field, s₁)
    | .assign name rhs =>
      match evalE reg n rhs s with
      | (.error m, s₁) => (.error m, s₁)
      | (.ok v, s₁) => (.ok v, { s₁ with locals := (name, v) :: s₁.locals })
    | .seq a b =>
      match evalE reg n a s with
      | (.error m, s₁) => (.error m, s₁)
      | (.ok _, s₁) => evalE reg n b s₁

/-- Apply a local function: push a scope with the parameter bindings layered
over the current environment, evaluate the body, pop the scope (§4.3
CallLocalFunction). -/
def applyLocal (reg : Registry) : Nat → LocalFn → List JSVal → EvalSt →
    Except String JSVal × EvalSt
  | 0, _, _, s => (.error "evaluation fuel exhausted", s)
  | n + 1, lf, vs, s =>
    match evalE reg n lf.body { s with locals := bindParams lf.params vs ++ s.locals } with
    | (r, s₁) => (r, ⟨s₁.vars, s.locals, s.fns⟩)

/-- Evaluate a list of expressions left to right, threading the state. -/
def evalList (reg : Registry) : Nat → List Expr → EvalSt →
    Except String (List JSVal) × EvalSt
  | 0, _, s => (.error "evaluation fuel exhausted", s)
  | _ + 1, [], s => (.ok [], s)
  | n + 1, e :: es, s =>
    match evalE reg n e s with
    | (.error m, s₁) => (.error m, s₁)
    | (.ok v, s₁) =>
      match evalList reg n es s₁ with
      | (.error m, s₂) => (.error m, s₂)
      | (.ok vs, s₂) => (.ok (v :: vs), s₂)

end

/-! ## Free variables (`expr.symbols()` / `expr.variables()`) -/

mutual

/-- Modelled from the spec: the symbols a compiled expression requires from
the binding map, in source order, as the identifier checks of the wrappers
consume them (`expr.symbols()` / `expr.variables()` of the missing core):
every variable
reference and assignment target, including the callee name of a call that
resolved to neither a registry function nor a unary operator nor a constant
at parse time; a local function definition contributes its own name while
its parameters are excluded within its body (spec §3, the free-variable set
of a Compiled Expression). -/
def freeVarsList : Expr → List String
  | .lit _ => []
  | .var name => [name]
  | .unop _ e => freeVarsList e
  | .binop _ a b => freeVarsList a ++ freeVarsList b
  | .ternary c t f => freeVarsList c ++ freeVarsList t ++ freeVarsList f
  | .call callee args => freeVarsList callee ++ freeVarsL args
  | .fndef f params body => f :: (freeVarsList body).filter (fun v => ¬ v ∈ params)
  | .arrLit es => freeVarsL es
  | .index a i => freeVarsList a ++ freeVarsList i
  | .member a _ => freeVarsList a
  | .assign name rhs => name :: freeVarsList rhs
  | .seq a b => freeVarsList a ++ freeVarsList b

def freeVarsL : List Expr → List String
  | [] => []
  | e :: es => freeVarsList e ++ freeVarsL es

end

/-! ## Default registries and parser configurations -/

/-- All numeric arguments, or `none`. -/
def allNums : List JSVal → Option (List Int)
  | [] => some []
  | .num q :: rest => (allNums rest).map fun qs => q :: qs
  | _ => none

/-- Modelled from the spec: §2 Registries (constants) of the missing core —
the default built-in constants of a freshly constructed parser (`E`, `PI`,
`true`, `false`). The
float values of `E` and `PI` are outside the integer model and are carried
as integer placeholders: what every theorem below depends on is only which
names are registered (a registered constant is substituted at parse time),
never these two values. -/
def defaultConsts : List (String × JSVal) :=
  [("E", .num 3),
   ("PI", .num 3),
   ("true", .bool true),
   ("false", .bool false)]

/-- Modelled from the spec: §2 Registries (operators) of the missing core —
the default unary-operator names of a freshly constructed parser; a
representative table —
what matters to the claims is which names are present (they lex as operator
applications), not the transcendental implementations. -/
def defaultUnaryNames : List String :=
  ["-", "+", "not", "sin", "cos", "tan", "asin", "acos", "atan", "sinh", "cosh",
   "tanh", "sqrt", "abs", "ceil", "floor", "round", "trunc", "exp", "ln", "log",
   "lg", "log10", "length", "sign"]

/-- Modelled from the spec: §2 Registries (functions) of the missing core —
the default function registry of a freshly constructed parser. A
representative subset;
the host context names the security tests bind (`write`, `cmd`, `exec`,
`evil`) are not registry members, which is the property the claims rely on.
`random` is outside the deterministic model and is mapped to a failure (no
claim evaluates it). -/
def defaultFunctions : Registry :=
  [("random", fun _ => .error "random is outside the deterministic model"),
   ("min", fun vs =>
     match allNums vs with
     | some (q :: qs) => .ok (.num (qs.foldl min q))
     | _ => .error "min expects numeric arguments"),
   ("max", fun vs =>
     match allNums vs with
     | some (q :: qs) => .ok (.num (qs.foldl max q))
     | _ => .error "max expects numeric arguments"),
   ("pow", fun vs =>
     match vs with
     | [a, b] => applyBinop "^" a b
     | _ => .error "pow expects two arguments"),
   ("hypot", fun _ => .error "hypot is outside the rational model"),
   ("atan2", fun _ => .error "atan2 is outside the rational model"),
   ("roundTo", fun _ => .error "roundTo is outside the rational model"),
   ("if", fun vs =>
     match vs with
     | [c, t, f] => .ok (if jsTruthy c then t else f)
     | _ => .error "if expects three arguments")]

/-- Parser configuration produced by `src/lib/safe-evaluator.js` lines
79–93: `parser.functions = {}`, unary operators restricted to `-`, `+`,
`not`, and `parser.consts = {}`; `fndef` is not enabled. -/
def libParseCfg : ParseCfg := ⟨["-", "+", "not"], [], false⟩

/-- Parser configuration produced by the wrapper in `src/unnamed/part_000`
lines 127–139: `parser.functions = {}` and unary operators restricted to
`-` and `+` only; constants are left at their defaults and `fndef` is not
enabled. -/
def altParseCfg : ParseCfg := ⟨["-", "+"], defaultConsts, false⟩

/-- Parser configuration of `new Parser({ operators: { fndef: true } })` as
the security tests construct it: default registries with local function
definition enabled. -/
def rawFndefParseCfg : ParseCfg := ⟨defaultUnaryNames, defaultConsts, true⟩

/-- Evaluation fuel used by the embedded entry points; ample for every
expression the claims evaluate, and identical across entry points so that
resource exhaustion cannot distinguish them. -/
def evalFuel : Nat := 1000

/-- Modelled from the spec: §6 `compile` then `evaluate` of the missing core
— `Parser.prototype.evaluate`: parse under a configuration and execute
against a registry and a binding map. -/
def parserEvaluate (cfg : ParseCfg) (reg : Registry) (src : String)
    (vars : List (String × JSVal)) : Except String JSVal :=
  match parseStr cfg src with
  | .error m => .error m
  | .ok e => (evalE reg evalFuel e ⟨vars, [], []⟩).1

/-- `new Parser({operators: {fndef: true}}).evaluate(src, vars)`, the entry
point exercised by the IFUNDEF security tests. -/
def rawFndefEvaluate (src : String) (vars : List (String × JSVal)) : Except String JSVal :=
  parserEvaluate rawFndefParseCfg defaultFunctions src vars

/-! ## The two safe-evaluator wrappers (source: `src/lib/safe-evaluator.js`
and `src/unnamed/part_000`) -/

/-- An ASCII single-quote wrapper for error messages. -/
def quoteSingle (s : String) : String := "\x27" ++ s ++ "\x27"

/-- An ASCII double-quote wrapper for error messages. -/
def quoteDouble (s : String) : String := "\"" ++ s ++ "\""

/-- The per-variable validation loop of `src/lib/safe-evaluator.js` lines
56–77: only numbers, booleans, strings, `null` and `undefined` pass; the
first offending variable is reported. -/
def validateVariablesLib : List (String × JSVal) → Except String Unit
  | [] => .ok ()
  | (k, v) :: rest =>
    let t := typeofJS v
    if t ≠ "number" ∧ t ≠ "boolean" ∧ t ≠ "string" ∧ ¬ v.isNull ∧ ¬ v.isUndef then
      .error ("Variable " ++ quoteSingle k ++
        " must be a primitive value (number, boolean, string, or null). Got: " ++ t)
    else if t = "function" then
      .error ("Variable " ++ quoteSingle k ++
        " cannot be a function. Function calls are not allowed for security reasons.")
    else if t = "object" ∧ ¬ v.isNull then
      .error ("Variable " ++ quoteSingle k ++
        " cannot be an object. Only primitive values are allowed.")
    else validateVariablesLib rest

/-- The identifier check of `src/lib/safe-evaluator.js` lines 111–117. -/
def validateIdentifiersLib : List String → List (String × JSVal) → Except String Unit
  | [], _ => .ok ()
  | sym :: rest, props =>
    if hasOwn props sym then validateIdentifiersLib rest props
    else .error ("Unknown identifier " ++ quoteSingle sym ++
      " in expression. All identifiers must be provided in variables.")

/-- `validatePrimitive(value, name)` of `src/unnamed/part_000` lines 25–44. -/
def validatePrimitive (value : JSVal) (name : String) : Except String Unit :=
  if value.isNull then .ok ()
  else
    let t := typeofJS value
    if t = "function" then
      .error ("Variable " ++ quoteDouble name ++
        " is a function. Only primitive values are allowed.")
    else if t = "object" then
      .error ("Variable " ++ quoteDouble name ++
        " is an object. Only primitive values (number, string, boolean, null) are allowed.")
    else if t ≠ "number" ∧ t ≠ "string" ∧ t ≠ "boolean" ∧ t ≠ "undefined" then
      .error ("Variable " ++ quoteDouble name ++ " has unsupported type " ++
        quoteDouble t ++ ". Only primitive values are allowed.")
    else .ok ()

/-- `validateVariables(variables)` of `src/unnamed/part_000` lines 52–59. -/
def validateVariables : List (String × JSVal) → Except String Unit
  | [] => .ok ()
  | (k, v) :: rest =>
    match validatePrimitive v k with
    | .error m => .error m
    | .ok _ => validateVariables rest

/-- `validateIdentifiers(identifiers, variables)` of `src/unnamed/part_000`
lines 68–75. -/
def validateIdentifiers : List String → List (String × JSVal) → Except String Unit
  | [], _ => .ok ()
  | sym :: rest, props =>
    if hasOwn props sym then validateIdentifiers rest props
    else .error ("Unknown identifier " ++ quoteDouble sym ++
      ". All identifiers must be provided in variables.")

/-- `evaluate(expression, variables)` of `src/lib/safe-evaluator.js` lines
46–128, additionally returning the variables object of the caller as it is
observable after the call (second component), so that absence of mutation is
a provable statement rather than a modelling assumption: the error branches
return the object the caller passed, and the evaluation branch returns an
object carrying the binding list held by the final evaluator state. -/
def evaluateLibFull (expression varsArg : JSVal) : Except String JSVal × JSVal :=
  match expression with
  | .str src =>
    if ¬ jsTruthy varsArg ∨ typeofJS varsArg ≠ "object" ∨ isArrayJS varsArg then
      (.error "Variables must be an object", varsArg)
    else
      let props := ownProps varsArg
      match validateVariablesLib props with
      | .error m => (.error m, varsArg)
      | .ok _ =>
        match parseStr libParseCfg src with
        | .error m => (.error ("Failed to parse expression: " ++ m), varsArg)
        | .ok e =>
          match validateIdentifiersLib (freeVarsList e) props with
          | .error m => (.error m, varsArg)
          | .ok _ =>
            match evalE [] evalFuel e ⟨props, [], []⟩ with
            | (.error m, s) => (.error ("Failed to evaluate expression: " ++ m), .obj s.vars)
            | (.ok v, s) => (.ok v, .obj s.vars)
  | _ => (.error "Expression must be a string", varsArg)

/-- The public `evaluate` of `src/lib/safe-evaluator.js`: input-type guards,
primitive validation of every binding, parsing with emptied function and
constant registries and unary operators restricted to `-`/`+`/`not`,
identifier completeness check, then evaluation. -/
def evaluateLib (expression varsArg : JSVal) : Except String JSVal :=
  (evaluateLibFull expression varsArg).1

/-- The public `evaluate` of `src/unnamed/part_000` lines 112–161: same
pipeline, but an omitted (`undefined`) variables argument defaults to `{}`,
arrays are not rejected by the variables guard, the `not` unary operator is
also removed, and the constants registry is left at its defaults. -/
def evaluateAlt (expression varsArg : JSVal) : Except String JSVal :=
  match expression with
  | .str src =>
    let varsObj : Except String (List (String × JSVal)) :=
      if varsArg.isUndef then .ok []
      else if varsArg.isNull ∨ typeofJS varsArg ≠ "object" then
        .error "Variables must be an object"
      else .ok (ownProps varsArg)
    match varsObj with
    | .error m => .error m
    | .ok props =>
      match validateVariables props with
      | .error m => .error m
      | .ok _ =>
        match parseStr altParseCfg src with
        | .error m => .error ("Failed to parse expression: " ++ m)
        | .ok e =>
          match validateIdentifiers (freeVarsList e) props with
          | .error m => .error m
          | .ok _ =>
            match (evalE [] evalFuel e ⟨props, [], []⟩).1 with
            | .error m => .error ("Failed to evaluate expression: " ++ m)
            | .ok v => .ok v
  | _ => .error "Expression must be a string"

/-! ## Helper predicates and lemmas -/

/-- Whether a result is a failure (a thrown error). -/
def isErr {α β : Type} : Except α β → Bool
  | .error _ => true
  | .ok _ => false

/-- A binding value the validation boundary accepts: number, boolean,
string, `null` or `undefined`. -/
def isPrimitiveOk : JSVal → Bool
  | .num _ => true
  | .bool _ => true
  | .str _ => true
  | .null => true
  | .undef => true
  | _ => false

/-- A binding value the claims call non-primitive: a callable, or a non-null
composite of type `object` (objects and arrays). -/
def isBadBindingVal (v : JSVal) : Bool :=
  typeofJS v = "function" ∨ (typeofJS v = "object" ∧ ¬ v.isNull)

theorem vars_of_evalE {reg : Registry} {n : Nat} {e : Expr} {s : EvalSt}
    {r : Except String JSVal} {s' : EvalSt}
    (ih : ∀ e s, ((evalE reg n e s).2).vars = s.vars)
    (h : evalE reg n e s = (r, s')) : s'.vars = s.vars := by
  have hx := ih e s
  rw [h] at hx
  exact hx

theorem vars_of_evalList {reg : Registry} {n : Nat} {es : List Expr} {s : EvalSt}
    {r : Except String (List JSVal)} {s' : EvalSt}
    (ih : ∀ es s, ((evalList reg n es s).2).vars = s.vars)
    (h : evalList reg n es s = (r, s')) : s'.vars = s.vars := by
  have hx := ih es s
  rw [h] at hx
  exact hx

/-- The evaluator never writes to the binding map of the caller: the `vars`
component of the per-evaluation state is invariant under evaluation (both on
success and on failure) — in-expression assignment writes to the `locals`
scope and local function application pushes and pops parameter scopes, but
nothing touches `vars`. -/
theorem evalState_vars_preserved (reg : Registry) :
    ∀ n : Nat,
      (∀ e s, ((evalE reg n e s).2).vars = s.vars) ∧
      (∀ lf vs s, ((applyLocal reg n lf vs s).2).vars = s.vars) ∧
      (∀ es s, ((evalList reg n es s).2).vars = s.vars) := by
  intro n
  induction n with
  | zero => exact ⟨fun _ _ => rfl, fun _ _ _ => rfl, fun _ _ => rfl⟩
  | succ n ih =>
    obtain ⟨ihE, ihA, ihL⟩ := ih
    refine ⟨fun e s => ?_, fun lf vs s => ?_, fun es s => ?_⟩
    · cases e with
      | lit v => rfl
      | var name =>
        simp only [evalE]
        cases lookupVarVal s name <;> rfl
      | unop op a =>
        simp only [evalE]
        rcases h₁ : evalE reg n a s with ⟨r₁, s₁⟩
        have hv₁ := vars_of_evalE ihE h₁
        cases r₁ <;> exact hv₁
      | binop op a b =>
        simp only [evalE]
        split
        · rcases h₁ : evalE reg n a s with ⟨r₁, s₁⟩
          have hv₁ := vars_of_evalE ihE h₁
          cases r₁ with
          | error m => exact hv₁
          | ok va =>
            dsimp only
            by_cases ht : jsTruthy va = true
            · rw [if_pos ht]
              rcases h₂ : evalE reg n b s₁ with ⟨r₂, s₂⟩
              have hv₂ := vars_of_evalE ihE h₂
              cases r₂ <;> exact hv₂.trans hv₁
            · rw [if_neg ht]
              exact hv₁
        · split
          · rcases h₁ : evalE reg n a s with ⟨r₁, s₁⟩
            have hv₁ := vars_of_evalE ihE h₁
            cases r₁ with
            | error m => exact hv₁
            | ok va =>
              dsimp only
              by_cases ht : jsTruthy va = true
              · rw [if_pos ht]
                exact hv₁
              · rw [if_neg ht]
                rcases h₂ : evalE reg n b s₁ with ⟨r₂, s₂⟩
                have hv₂ := vars_of_evalE ihE h₂
                cases r₂ <;> exact hv₂.trans hv₁
          · rcases h₁ : evalE reg n a s with ⟨r₁, s₁⟩
            have hv₁ := vars_of_evalE ihE h₁
            cases r₁ with
            | error m => exact hv₁
            | ok va =>
              dsimp only
              rcases h₂ : evalE reg n b s₁ with ⟨r₂, s₂⟩
              have hv₂ := vars_of_evalE ihE h₂
              cases r₂ <;> exact hv₂.trans hv₁
      | ternary c t f =>
        simp only [evalE]
        rcases h₁ : evalE reg n c s with ⟨r₁, s₁⟩
        have hv₁ := vars_of_evalE ihE h₁
        cases r₁ with
        | error m => exact hv₁
        | ok vc =>
          dsimp only
          by_cases ht : jsTruthy vc = true
          · rw [if_pos ht]
            exact (ihE t s₁).trans hv₁
          · rw [if_neg ht]
            exact (ihE f s₁).trans hv₁
      | call callee args =>
        simp only [evalE]
        cases callee with
        | var f =>
          dsimp only
          cases hr : lookupReg reg f with
          | some fn =>
            rcases h₁ : evalList reg n args s with ⟨r₁, s₁⟩
            have hv₁ := vars_of_evalList ihL h₁
            cases r₁ <;> exact hv₁
          | none =>
            dsimp only
            cases hl : lookupLocalFn s.fns f with
            | some lf =>
              rcases h₁ : evalList reg n args s with ⟨r₁, s₁⟩
              have hv₁ := vars_of_evalList ihL h₁
              cases r₁ with
              | error m => exact hv₁
              | ok vs => exact (ihA lf vs s₁).trans hv₁
            | none => rfl
        | fndef f params body =>
          dsimp only
          rcases h₁ : evalList reg n args s with ⟨r₁, s₁⟩
          have hv₁ := vars_of_evalList ihL h₁
          cases r₁ with
          | error m => exact hv₁
          | ok vs => exact (ihA ⟨params, body⟩ vs _).trans hv₁
        | lit v => rfl
        | unop o a => rfl
        | binop o a b => rfl
        | ternary c t f => rfl
        | call c as => rfl
        | arrLit es => rfl
        | index a i => rfl
        | member a fld => rfl
        | assign nm rhs => rfl
        | seq a b => rfl
      | fndef f params body => rfl
      | arrLit es =>
        simp only [evalE]
        rcases h₁ : evalList reg n es s with ⟨r₁, s₁⟩
        have hv₁ := vars_of_evalList ihL h₁
        cases r₁ <;> exact hv₁
      | index a i =>
        simp only [evalE]
        rcases h₁ : evalE reg n a s with ⟨r₁, s₁⟩
        have hv₁ := vars_of_evalE ihE h₁
        cases r₁ with
        | error m => exact hv₁
        | ok va =>
          dsimp only
          rcases h₂ : evalE reg n i s₁ with ⟨r₂, s₂⟩
          have hv₂ := vars_of_evalE ihE h₂
          cases r₂ <;> exact hv₂.trans hv₁
      | member a fld =>
        simp only [evalE]
        rcases h₁ : evalE reg n a s with ⟨r₁, s₁⟩
        have hv₁ := vars_of_evalE ihE h₁
        cases r₁ <;> exact hv₁
      | assign nm rhs =>
        simp only [evalE]
        rcases h₁ : evalE reg n rhs s with ⟨r₁, s₁⟩
        have hv₁ := vars_of_evalE ihE h₁
        cases r₁ <;> exact hv₁
      | seq a b =>
        simp only [evalE]
        rcases h₁ : evalE reg n a s with ⟨r₁, s₁⟩
        have hv₁ := vars_of_evalE ihE h₁
        cases r₁ with
        | error m => exact hv₁
        | ok va => exact (ihE b s₁).trans hv₁
    · simp only [applyLocal]
      rcases h₁ : evalE reg n lf.body { s with locals := bindParams lf.params vs ++ s.locals }
        with ⟨r₁, s₁⟩
      have hv₁ := vars_of_evalE ihE h₁
      exact hv₁
    · cases es with
      | nil => rfl
      | cons e rest =>
        simp only [evalList]
        rcases h₁ : evalE reg n e s with ⟨r₁, s₁⟩
        have hv₁ := vars_of_evalE ihE h₁
        cases r₁ with
        | error m => exact hv₁
        | ok v =>
          dsimp only
          rcases h₂ : evalList reg n rest s₁ with ⟨r₂, s₂⟩
          have hv₂ := vars_of_evalList ihL h₂
          cases r₂ <;> exact hv₂.trans hv₁

/-- The error `src/lib/safe-evaluator.js` raises for a non-primitive
binding: every callable and every non-null object/array fails the combined
primitive test first, so this single message covers all of them. -/
def libBadVarMsg (k : String) (v : JSVal) : String :=
  "Variable " ++ quoteSingle k ++
    " must be a primitive value (number, boolean, string, or null). Got: " ++ typeofJS v

/-- The error `validatePrimitive` of `src/unnamed/part_000` raises for a
non-primitive binding. -/
def altBadVarMsg (k : String) (v : JSVal) : String :=
  if typeofJS v = "function" then
    "Variable " ++ quoteDouble k ++ " is a function. Only primitive values are allowed."
  else
    "Variable " ++ quoteDouble k ++
      " is an object. Only primitive values (number, string, boolean, null) are allowed."

theorem validateVariablesLib_ok_iff (props : List (String × JSVal)) :
    validateVariablesLib props = .ok () ↔ ∀ kv ∈ props, isPrimitiveOk kv.2 = true := by
  induction props with
  | nil => simp [validateVariablesLib]
  | cons kv rest ih =>
    obtain ⟨k, v⟩ := kv
    cases v <;>
      simp [validateVariablesLib, typeofJS, JSVal.isNull, JSVal.isUndef, isPrimitiveOk, ih]

theorem validateVariables_ok_iff (props : List (String × JSVal)) :
    validateVariables props = .ok () ↔ ∀ kv ∈ props, isPrimitiveOk kv.2 = true := by
  induction props with
  | nil => simp [validateVariables]
  | cons kv rest ih =>
    obtain ⟨k, v⟩ := kv
    cases v <;>
      simp [validateVariables, validatePrimitive, typeofJS, JSVal.isNull, isPrimitiveOk, ih]

/-- The first binding (in iteration order) carrying a non-primitive value,
as the validation loops of the wrappers encounter it. -/
def firstBadVar : List (String × JSVal) → Option (String × JSVal)
  | [] => none
  | (k, v) :: rest => if isBadBindingVal v then some (k, v) else firstBadVar rest

theorem validateVariablesLib_err (props : List (String × JSVal)) (k : String) (v : JSVal)
    (h : firstBadVar props = some (k, v)) :
    validateVariablesLib props = .error (libBadVarMsg k v) := by
  induction props with
  | nil => simp [firstBadVar] at h
  | cons kv rest ih =>
    obtain ⟨k₀, v₀⟩ := kv
    by_cases hb : isBadBindingVal v₀ = true
    · rw [firstBadVar, if_pos hb] at h
      obtain ⟨hk, hv⟩ : k₀ = k ∧ v₀ = v := by
        injection h with h'
        exact ⟨congrArg Prod.fst h', congrArg Prod.snd h'⟩
      subst hk
      subst hv
      revert hb
      cases v₀ <;>
        simp [validateVariablesLib, isBadBindingVal, typeofJS, JSVal.isNull,
          JSVal.isUndef, libBadVarMsg]
    · rw [firstBadVar, if_neg hb] at h
      have hrest := ih h
      revert hb
      cases v₀ <;>
        simp [validateVariablesLib, isBadBindingVal, typeofJS, JSVal.isNull,
          JSVal.isUndef, hrest]

theorem validateVariables_err (props : List (String × JSVal)) (k : String) (v : JSVal)
    (h : firstBadVar props = some (k, v)) :
    validateVariables props = .error (altBadVarMsg k v) := by
  induction props with
  | nil => simp [firstBadVar] at h
  | cons kv rest ih =>
    obtain ⟨k₀, v₀⟩ := kv
    by_cases hb : isBadBindingVal v₀ = true
    · rw [firstBadVar, if_pos hb] at h
      obtain ⟨hk, hv⟩ : k₀ = k ∧ v₀ = v := by
        injection h with h'
        exact ⟨congrArg Prod.fst h', congrArg Prod.snd h'⟩
      subst hk
      subst hv
      revert hb
      cases v₀ <;>
        simp [validateVariables, validatePrimitive, isBadBindingVal, typeofJS,
          JSVal.isNull, altBadVarMsg]
    · rw [firstBadVar, if_neg hb] at h
      have hrest := ih h
      revert hb
      cases v₀ <;>
        simp [validateVariables, validatePrimitive, isBadBindingVal, typeofJS,
          JSVal.isNull, hrest]

theorem validateIdentifiersLib_ok_iff (ids : List String) (props : List (String × JSVal)) :
    validateIdentifiersLib ids props = .ok () ↔ ∀ sym ∈ ids, hasOwn props sym = true := by
  induction ids with
  | nil => simp [validateIdentifiersLib]
  | cons sym rest ih =>
    by_cases hh : hasOwn props sym = true <;>
      simp [validateIdentifiersLib, hh, ih]

theorem validateIdentifiers_ok_iff (ids : List String) (props : List (String × JSVal)) :
    validateIdentifiers ids props = .ok () ↔ ∀ sym ∈ ids, hasOwn props sym = true := by
  induction ids with
  | nil => simp [validateIdentifiers]
  | cons sym rest ih =>
    by_cases hh : hasOwn props sym = true <;>
      simp [validateIdentifiers, hh, ih]

theorem validateIdentifiersLib_err (ids : List String) (props : List (String × JSVal))
    (h : ∃ sym ∈ ids, hasOwn props sym = false) :
    ∃ sym, sym ∈ ids ∧ hasOwn props sym = false ∧
      validateIdentifiersLib ids props = .error ("Unknown identifier " ++ quoteSingle sym ++
        " in expression. All identifiers must be provided in variables.") := by
  induction ids with
  | nil => simp at h
  | cons s0 rest ih =>
    by_cases hh : hasOwn props s0 = true
    · obtain ⟨sym, hmem, hmiss⟩ := h
      rcases List.mem_cons.mp hmem with heq | hmem'
      · subst heq
        rw [hh] at hmiss
        cases hmiss
      · obtain ⟨sym', hm', hmiss', herr⟩ := ih ⟨sym, hmem', hmiss⟩
        exact ⟨sym', List.mem_cons_of_mem _ hm', hmiss',
          by simp [validateIdentifiersLib, hh, herr]⟩
    · refine ⟨s0, List.mem_cons_self _ _, by simpa using hh, ?_⟩
      simp [validateIdentifiersLib, hh]

theorem evaluateLibFull_obj_step (src : String) (props : List (String × JSVal)) :
    evaluateLibFull (.str src) (.obj props) =
      (match validateVariablesLib props with
       | .error m => (.error m, .obj props)
       | .ok _ =>
         match parseStr libParseCfg src with
         | .error m => (.error ("Failed to parse expression: " ++ m), .obj props)
         | .ok e =>
           match validateIdentifiersLib (freeVarsList e) props with
           | .error m => (.error m, .obj props)
           | .ok _ =>
             match evalE [] evalFuel e ⟨props, [], []⟩ with
             | (.error m, s) => (.error ("Failed to evaluate expression: " ++ m), .obj s.vars)
             | (.ok v, s) => (.ok v, .obj s.vars)) := by
  show (if ¬ jsTruthy (JSVal.obj props) = true ∨ typeofJS (JSVal.obj props) ≠ "object" ∨
      isArrayJS (JSVal.obj props) = true then
      ((.error "Variables must be an object" : Except String JSVal), JSVal.obj props)
    else _) = _
  rw [if_neg (by simp [jsTruthy, typeofJS, isArrayJS])]
  rfl

theorem evaluateAlt_obj_step (src : String) (props : List (String × JSVal)) :
    evaluateAlt (.str src) (.obj props) =
      (match validateVariables props with
       | .error m => .error m
       | .ok _ =>
         match parseStr altParseCfg src with
         | .error m => .error ("Failed to parse expression: " ++ m)
         | .ok e =>
           match validateIdentifiers (freeVarsList e) props with
           | .error m => .error m
           | .ok _ =>
             match (evalE [] evalFuel e ⟨props, [], []⟩).1 with
             | .error m => .error ("Failed to evaluate expression: " ++ m)
             | .ok v => .ok v) := rfl

theorem evaluateAlt_arr_step (src : String) (elems : List JSVal) :
    evaluateAlt (.str src) (.arr elems) =
      (match validateVariables (ownProps (.arr elems)) with
       | .error m => .error m
       | .ok _ =>
         match parseStr altParseCfg src with
         | .error m => .error ("Failed to parse expression: " ++ m)
         | .ok e =>
           match validateIdentifiers (freeVarsList e) (ownProps (.arr elems)) with
           | .error m => .error m
           | .ok _ =>
             match (evalE [] evalFuel e ⟨ownProps (.arr elems), [], []⟩).1 with
             | .error m => .error ("Failed to evaluate expression: " ++ m)
             | .ok v => .ok v) := rfl

theorem evaluateAlt_undef_step (src : String) :
    evaluateAlt (.str src) .undef =
      (match parseStr altParseCfg src with
       | .error m => .error ("Failed to parse expression: " ++ m)
       | .ok e =>
         match validateIdentifiers (freeVarsList e) [] with
         | .error m => .error m
         | .ok _ =>
           match (evalE [] evalFuel e ⟨[], [], []⟩).1 with
           | .error m => .error ("Failed to evaluate expression: " ++ m)
           | .ok v => .ok v) := rfl

theorem evaluateLibFull_gate (src : String) (varsArg : JSVal)
    (hgate : ¬ jsTruthy varsArg = true ∨ typeofJS varsArg ≠ "object" ∨
      isArrayJS varsArg = true) :
    evaluateLibFull (.str src) varsArg = (.error "Variables must be an object", varsArg) := by
  show (if ¬ jsTruthy varsArg = true ∨ typeofJS varsArg ≠ "object" ∨
      isArrayJS varsArg = true then
      ((.error "Variables must be an object" : Except String JSVal), varsArg)
    else _) = _
  rw [if_pos hgate]

theorem evaluateLib_gate_err (src : String) (varsArg : JSVal)
    (hgate : ¬ jsTruthy varsArg = true ∨ typeofJS varsArg ≠ "object" ∨
      isArrayJS varsArg = true) :
    evaluateLib (.str src) varsArg = .error "Variables must be an object" := by
  unfold evaluateLib
  rw [evaluateLibFull_gate src varsArg hgate]

theorem evaluateLib_obj_step (src : String) (props : List (String × JSVal)) :
    evaluateLib (.str src) (.obj props) =
      (match validateVariablesLib props with
       | .error m => .error m
       | .ok _ =>
         match parseStr libParseCfg src with
         | .error m => .error ("Failed to parse expression: " ++ m)
         | .ok e =>
           match validateIdentifiersLib (freeVarsList e) props with
           | .error m => .error m
           | .ok _ =>
             match (evalE [] evalFuel e ⟨props, [], []⟩).1 with
             | .error m => .error ("Failed to evaluate expression: " ++ m)
             | .ok v => .ok v) := by
  unfold evaluateLib
  rw [evaluateLibFull_obj_step]
  cases validateVariablesLib props with
  | error m => rfl
  | ok u =>
    dsimp only
    cases parseStr libParseCfg src with
    | error m => rfl
    | ok e =>
      dsimp only
      cases validateIdentifiersLib (freeVarsList e) props with
      | error m => rfl
      | ok u2 =>
        dsimp only
        rcases evalE [] evalFuel e ⟨props, [], []⟩ with ⟨r, s⟩
        cases r <;> rfl

theorem evaluateLib_errs_when_parse_errs (src : String) (m : String)
    (h : parseStr libParseCfg src = .error m) :
    ∀ varsArg, isErr (evaluateLib (.str src) varsArg) = true := by
  intro varsArg
  cases varsArg with
  | num n =>
    rw [evaluateLib_gate_err src _ (Or.inr (Or.inl (by simp [typeofJS])))]
    rfl
  | bool b =>
    rw [evaluateLib_gate_err src _ (Or.inr (Or.inl (by simp [typeofJS])))]
    rfl
  | str s =>
    rw [evaluateLib_gate_err src _ (Or.inr (Or.inl (by simp [typeofJS])))]
    rfl
  | null =>
    rw [evaluateLib_gate_err src _ (Or.inl (by simp [jsTruthy]))]
    rfl
  | undef =>
    rw [evaluateLib_gate_err src _ (Or.inl (by simp [jsTruthy]))]
    rfl
  | func i =>
    rw [evaluateLib_gate_err src _ (Or.inr (Or.inl (by simp [typeofJS])))]
    rfl
  | arr elems =>
    rw [evaluateLib_gate_err src _ (Or.inr (Or.inr (by simp [isArrayJS])))]
    rfl
  | obj props =>
    rw [evaluateLib_obj_step]
    cases hv : validateVariablesLib props with
    | error m2 => rfl
    | ok u =>
      dsimp only
      rw [h]
      rfl

theorem evaluateAlt_errs_when_parse_errs (src : String) (m : String)
    (h : parseStr altParseCfg src = .error m) :
    ∀ varsArg, isErr (evaluateAlt (.str src) varsArg) = true := by
  intro varsArg
  cases varsArg with
  | num n => rfl
  | bool b => rfl
  | str s => rfl
  | null => rfl
  | func i => rfl
  | undef =>
    rw [evaluateAlt_undef_step, h]
    rfl
  | obj props =>
    rw [evaluateAlt_obj_step]
    cases hv : validateVariables props with
    | error m2 => rfl
    | ok u =>
      dsimp only
      rw [h]
      rfl
  | arr elems =>
    rw [evaluateAlt_arr_step]
    cases hv : validateVariables (ownProps (.arr elems)) with
    | error m2 => rfl
    | ok u =>
      dsimp only
      rw [h]
      rfl

/-! ## Claim theorems -/

/-- C5: Precedence correctness through the public evaluate entry points:
`2 + 3 * 4` evaluates to 14 (multiplicative binds tighter than additive),
`2 ^ 3 ^ 2` evaluates to 512 (exponentiation is right-associative), and
`-2 ^ 2` evaluates to −4 (unary minus binds looser than exponentiation),
under both wrapper implementations. -/
theorem claim_C5_precedence :
    evaluateLib (.str "2 + 3 * 4") (.obj []) = .ok (.num 14) ∧
    evaluateLib (.str "2 ^ 3 ^ 2") (.obj []) = .ok (.num 512) ∧
    evaluateLib (.str "-2 ^ 2") (.obj []) = .ok (.num (-4)) ∧
    evaluateAlt (.str "2 + 3 * 4") (.obj []) = .ok (.num 14) ∧
    evaluateAlt (.str "2 ^ 3 ^ 2") (.obj []) = .ok (.num 512) ∧
    evaluateAlt (.str "-2 ^ 2") (.obj []) = .ok (.num (-4)) :=
  ⟨by rfl, by rfl, by rfl, by rfl, by rfl, by rfl⟩

/-- C7: Determinism of evaluate: both public entry points are pure functions
of the expression argument and the variables argument — two calls with equal
arguments return identical results (or throw the same error); there is no
hidden mutable state (each call constructs a fresh parser configuration, the
registries the wrappers install are constants, and the evaluator reads only
its two arguments). -/
theorem claim_C7_determinism (e₁ e₂ v₁ v₂ : JSVal) (he : e₁ = e₂) (hv : v₁ = v₂) :
    evaluateLib e₁ v₁ = evaluateLib e₂ v₂ ∧ evaluateAlt e₁ v₁ = evaluateAlt e₂ v₂ := by
  subst he
  subst hv
  exact ⟨rfl, rfl⟩

/-- Witness for C7 at a concrete input. -/
theorem claim_C7_determinism_witness :
    evaluateLib (.str "2 + 2") (.obj []) = evaluateLib (.str "2 + 2") (.obj []) ∧
    evaluateAlt (.str "2 + 2") (.obj []) = evaluateAlt (.str "2 + 2") (.obj []) :=
  claim_C7_determinism (.str "2 + 2") (.str "2 + 2") (.obj []) (.obj []) rfl rfl

/-- C1 (counterexample): the claim quantifies over *every* expression string
containing a function-call form and *every* binding map, and asserts evaluate
always throws. It fails on a call form placed in an unevaluated short-circuit
branch whose callee name is covered by the binding map: `1 ? 2 : exec(1)`
with `{exec: 5}` parses to a ternary containing the call `exec(1)`, passes
the identifier check, and returns 2 without throwing (and without invoking
anything). -/
theorem claim_C1_counterexample :
    parseStr libParseCfg "1 ? 2 : exec(1)" =
      .ok (.ternary (.lit (.num 1)) (.lit (.num 2)) (.call (.var "exec") [.lit (.num 1)])) ∧
    evaluateLib (.str "1 ? 2 : exec(1)") (.obj [("exec", .num 5)]) = .ok (.num 2) :=
  ⟨by rfl, by rfl⟩

/-- C1 (amended): a call form whose evaluation is actually reached fails with
an unknown-function / unknown-identifier error and never invokes a
binding-map value — in particular `evaluate("exec(1)", {exec: v})` and
`evaluate("g(1)", {g: v})` fail for every value `v` under both wrappers (the
registries are emptied, so the callee resolves to no registry or local
function; binding values are never call targets), and `exec(1)` with an
empty binding map fails the identifier check. -/
theorem claim_C1_amended (v : JSVal) :
    isErr (evaluateLib (.str "exec(1)") (.obj [("exec", v)])) = true ∧
    isErr (evaluateAlt (.str "exec(1)") (.obj [("exec", v)])) = true ∧
    isErr (evaluateLib (.str "g(1)") (.obj [("g", v)])) = true ∧
    isErr (evaluateAlt (.str "g(1)") (.obj [("g", v)])) = true ∧
    isErr (evaluateLib (.str "exec(1)") (.obj [])) = true := by
  cases v <;> exact ⟨by rfl, by rfl, by rfl, by rfl, by rfl⟩

/-- C3: Member/index containment: `x.constructor` and `__proto__` fail under
both public entry points for every variables argument (any object binding is
rejected as non-primitive, and independently the parser rejects
prototype-ancestry names with `prototype access detected` before the
identifier check or evaluation can run), while array-literal indexing
`[1,2,3][1]` evaluates to the element 2. -/
theorem claim_C3_member_containment :
    (∀ varsArg, isErr (evaluateLib (.str "x.constructor") varsArg) = true) ∧
    (∀ varsArg, isErr (evaluateLib (.str "__proto__") varsArg) = true) ∧
    (∀ varsArg, isErr (evaluateAlt (.str "x.constructor") varsArg) = true) ∧
    (∀ varsArg, isErr (evaluateAlt (.str "__proto__") varsArg) = true) ∧
    evaluateLib (.str "[1,2,3][1]") (.obj []) = .ok (.num 2) ∧
    evaluateAlt (.str "[1,2,3][1]") (.obj []) = .ok (.num 2) :=
  ⟨evaluateLib_errs_when_parse_errs _ "prototype access detected" (by rfl),
   evaluateLib_errs_when_parse_errs _ "prototype access detected" (by rfl),
   evaluateAlt_errs_when_parse_errs _ "prototype access detected" (by rfl),
   evaluateAlt_errs_when_parse_errs _ "prototype access detected" (by rfl),
   by rfl, by rfl⟩

/-- C2: Binding-map primitive enforcement: if any own property of the
variables object holds a callable or a non-null value of type `object`
(including arrays), both public entry points throw an error naming the first
such variable — before the expression is parsed or evaluated (the statement
holds for every expression string, parseable or not); and values of type
number, boolean, string, `null` and `undefined` all pass both validators. -/
theorem claim_C2_primitive_enforcement :
    (∀ (src : String) (props : List (String × JSVal)) (k : String) (v : JSVal),
      firstBadVar props = some (k, v) →
      evaluateLib (.str src) (.obj props) = .error (libBadVarMsg k v) ∧
      evaluateAlt (.str src) (.obj props) = .error (altBadVarMsg k v)) ∧
    (∀ props : List (String × JSVal), (∀ kv ∈ props, isPrimitiveOk kv.2 = true) →
      validateVariablesLib props = .ok () ∧ validateVariables props = .ok ()) := by
  constructor
  · intro src props k v h
    constructor
    · rw [evaluateLib_obj_step, validateVariablesLib_err props k v h]
    · rw [evaluateAlt_obj_step, validateVariables_err props k v h]
  · intro props h
    exact ⟨(validateVariablesLib_ok_iff props).mpr h, (validateVariables_ok_iff props).mpr h⟩

/-- Witness for C2 at concrete inputs: `{x: 5, y: {value: 10}}` is rejected
naming `y` even for an unparseable expression, and an all-primitive binding
map passes validation. -/
theorem claim_C2_primitive_enforcement_witness :
    (evaluateLib (.str "((") (.obj [("x", .num 5), ("y", .obj [("value", .num 10)])]) =
      .error (libBadVarMsg "y" (.obj [("value", .num 10)])) ∧
     evaluateAlt (.str "((") (.obj [("x", .num 5), ("y", .obj [("value", .num 10)])]) =
      .error (altBadVarMsg "y" (.obj [("value", .num 10)]))) ∧
    (validateVariablesLib [("a", .num 1), ("b", .bool true), ("c", .str "s"),
        ("d", .null), ("e", .undef)] = .ok () ∧
     validateVariables [("a", .num 1), ("b", .bool true), ("c", .str "s"),
        ("d", .null), ("e", .undef)] = .ok ()) :=
  ⟨claim_C2_primitive_enforcement.1 "((" _ "y" (.obj [("value", .num 10)]) (by rfl),
   claim_C2_primitive_enforcement.2 _ (by decide)⟩

/-- C4: Free-variable completeness check: for every expression that parses
successfully (under the parser configuration of the wrapper) and every validated
binding map, if some identifier the expression uses is missing from the
variables object, evaluate throws an unknown-identifier error naming a
missing identifier (the first, in source order) and never reaches
evaluation; if every identifier is covered, both identifier checks pass.
The free-variable set of `a + b * c` is `{a, b, c}`. -/
theorem claim_C4_free_variable_check :
    (∀ (src : String) (props : List (String × JSVal)) (e : Expr),
      parseStr libParseCfg src = .ok e →
      validateVariablesLib props = .ok () →
      (∃ sym ∈ freeVarsList e, hasOwn props sym = false) →
      ∃ sym, sym ∈ freeVarsList e ∧ hasOwn props sym = false ∧
        evaluateLib (.str src) (.obj props) =
          .error ("Unknown identifier " ++ quoteSingle sym ++
            " in expression. All identifiers must be provided in variables.")) ∧
    (∀ (ids : List String) (props : List (String × JSVal)),
      (∀ sym ∈ ids, hasOwn props sym = true) →
      validateIdentifiersLib ids props = .ok () ∧ validateIdentifiers ids props = .ok ()) ∧
    parseStr libParseCfg "a + b * c" =
      .ok (.binop "+" (.var "a") (.binop "*" (.var "b") (.var "c"))) ∧
    freeVarsList (.binop "+" (.var "a") (.binop "*" (.var "b") (.var "c"))) =
      ["a", "b", "c"] := by
  refine ⟨?_, ?_, by rfl, by rfl⟩
  · intro src props e hp hv hex
    obtain ⟨sym, hmem, hmiss, herr⟩ := validateIdentifiersLib_err (freeVarsList e) props hex
    refine ⟨sym, hmem, hmiss, ?_⟩
    rw [evaluateLib_obj_step, hv]
    dsimp only
    rw [hp]
    dsimp only
    rw [herr]
  · intro ids props h
    exact ⟨(validateIdentifiersLib_ok_iff _ _).mpr h, (validateIdentifiers_ok_iff _ _).mpr h⟩

/-- Witness for C4 at a concrete input: evaluating `a + b * c` with `c`
missing fails naming `c`, and the identifier check passes when all three are
bound. -/
theorem claim_C4_free_variable_check_witness :
    (∃ sym, sym ∈ freeVarsList (.binop "+" (.var "a") (.binop "*" (.var "b") (.var "c"))) ∧
      hasOwn [("a", JSVal.num 1), ("b", JSVal.num 2)] sym = false ∧
      evaluateLib (.str "a + b * c") (.obj [("a", .num 1), ("b", .num 2)]) =
        .error ("Unknown identifier " ++ quoteSingle sym ++
          " in expression. All identifiers must be provided in variables.")) ∧
    (validateIdentifiersLib ["a", "b", "c"]
        [("a", JSVal.num 1), ("b", JSVal.num 2), ("c", JSVal.num 3)] = .ok () ∧
     validateIdentifiers ["a", "b", "c"]
        [("a", JSVal.num 1), ("b", JSVal.num 2), ("c", JSVal.num 3)] = .ok ()) :=
  ⟨claim_C4_free_variable_check.1 "a + b * c" _ _ (by rfl) (by rfl)
      ⟨"c", by decide, by rfl⟩,
   claim_C4_free_variable_check.2.1 ["a", "b", "c"] _ (by decide)⟩

/-- C10 (counterexample): the claim asserts *every* null-or-non-object
variables argument is rejected before parsing, but `undefined` is a
non-object (`typeof undefined = "undefined"`) that the wrapper in
`src/unnamed/part_000` does not reject — it defaults it to `{}` and
evaluates: `evaluate("7 - 2", undefined)` returns 5 instead of throwing. -/
theorem claim_C10_counterexample :
    typeofJS JSVal.undef ≠ "object" ∧
    evaluateAlt (.str "7 - 2") JSVal.undef = .ok (.num 5) :=
  ⟨by decide, by rfl⟩

/-- C10 (amended): both entry points throw `Expression must be a string` for
every non-string expression argument (before any parsing — the statement
quantifies over all variables arguments and is independent of them); both
throw `Variables must be an object` for every variables argument that is
null, or a non-object other than `undefined` (again for every expression
string, parseable or not); on an `undefined` variables argument
`src/lib/safe-evaluator.js` throws while `src/unnamed/part_000` defaults it
to the empty binding map. -/
theorem claim_C10_amended :
    (∀ eArg varsArg : JSVal, eArg.isStr = false →
      evaluateLib eArg varsArg = .error "Expression must be a string" ∧
      evaluateAlt eArg varsArg = .error "Expression must be a string") ∧
    (∀ (src : String) (varsArg : JSVal),
      varsArg.isNull = true ∨ (typeofJS varsArg ≠ "object" ∧ varsArg.isUndef = false) →
      evaluateLib (.str src) varsArg = .error "Variables must be an object" ∧
      evaluateAlt (.str src) varsArg = .error "Variables must be an object") ∧
    (∀ src : String, evaluateLib (.str src) JSVal.undef = .error "Variables must be an object") := by
  refine ⟨?_, ?_, ?_⟩
  · intro eArg varsArg h
    cases eArg with
    | str s => simp [JSVal.isStr] at h
    | num n => exact ⟨rfl, rfl⟩
    | bool b => exact ⟨rfl, rfl⟩
    | null => exact ⟨rfl, rfl⟩
    | undef => exact ⟨rfl, rfl⟩
    | func i => exact ⟨rfl, rfl⟩
    | obj props => exact ⟨rfl, rfl⟩
    | arr elems => exact ⟨rfl, rfl⟩
  · intro src varsArg h
    cases varsArg with
    | null => exact ⟨evaluateLib_gate_err _ _ (Or.inl (by simp [jsTruthy])), by rfl⟩
    | num n => exact ⟨evaluateLib_gate_err _ _ (Or.inr (Or.inl (by simp [typeofJS]))), by rfl⟩
    | bool b => exact ⟨evaluateLib_gate_err _ _ (Or.inr (Or.inl (by simp [typeofJS]))), by rfl⟩
    | str s => exact ⟨evaluateLib_gate_err _ _ (Or.inr (Or.inl (by simp [typeofJS]))), by rfl⟩
    | func i => exact ⟨evaluateLib_gate_err _ _ (Or.inr (Or.inl (by simp [typeofJS]))), by rfl⟩
    | undef => simp [JSVal.isNull, JSVal.isUndef, typeofJS] at h
    | obj props => simp [JSVal.isNull, typeofJS] at h
    | arr elems => simp [JSVal.isNull, typeofJS] at h
  · intro src
    exact evaluateLib_gate_err _ _ (Or.inl (by simp [jsTruthy]))

/-- Witness for C10 at concrete inputs. -/
theorem claim_C10_amended_witness :
    (evaluateLib (.num 123) (.obj []) = .error "Expression must be a string" ∧
     evaluateAlt (.num 123) (.obj []) = .error "Expression must be a string") ∧
    (evaluateLib (.str "x") .null = .error "Variables must be an object" ∧
     evaluateAlt (.str "x") .null = .error "Variables must be an object") ∧
    (evaluateLib (.str "x") (.str "not an object") = .error "Variables must be an object" ∧
     evaluateAlt (.str "x") (.str "not an object") = .error "Variables must be an object") :=
  ⟨claim_C10_amended.1 (.num 123) (.obj []) (by rfl),
   claim_C10_amended.2.1 "x" .null (Or.inl (by rfl)),
   claim_C10_amended.2.1 "x" (.str "not an object") (Or.inr ⟨by decide, by rfl⟩)⟩

/-- C6: Local-function scoping: with `fndef` enabled,
`(f(x) = x * x)(5)` evaluates to 25 with an empty binding map, and a local
function whose body calls `write` — a name absent from the function
registry — fails with an error for every binding map, even one that binds
`write` to a host callable: call targets resolve only against the registry
and the in-scope local functions, never against the binding map. -/
theorem claim_C6_local_functions :
    rawFndefEvaluate "(f(x) = x * x)(5)" [] = .ok (.num 25) ∧
    (∀ vars : List (String × JSVal),
      isErr (rawFndefEvaluate "((h(x) = write(\"pwned.txt\", x)) + h(5))" vars) = true) :=
  ⟨by rfl, fun vars => by rfl⟩

/-- C8: No mutation of the binding map of the caller: for every call to the
public entry point — whether it returns a value or throws at input
validation, parse, identifier check, or execution — the variables object
observable after the call is exactly the object passed in; and, at the
evaluator level, the `vars` component of the per-evaluation state is
invariant for every registry, fuel, program and starting state (assignments
bind into the per-evaluation local scope only, and no error path leaves
state behind). -/
theorem claim_C8_no_mutation :
    (∀ eArg varsArg : JSVal, (evaluateLibFull eArg varsArg).2 = varsArg) ∧
    (∀ (reg : Registry) (n : Nat) (e : Expr) (s : EvalSt),
      ((evalE reg n e s).2).vars = s.vars) := by
  constructor
  · intro eArg varsArg
    cases eArg with
    | num n => rfl
    | bool b => rfl
    | null => rfl
    | undef => rfl
    | func i => rfl
    | obj props => rfl
    | arr elems => rfl
    | str src =>
      cases varsArg with
      | null => rw [evaluateLibFull_gate _ _ (Or.inl (by simp [jsTruthy]))]
      | num n => rw [evaluateLibFull_gate _ _ (Or.inr (Or.inl (by simp [typeofJS])))]
      | bool b => rw [evaluateLibFull_gate _ _ (Or.inr (Or.inl (by simp [typeofJS])))]
      | str s => rw [evaluateLibFull_gate _ _ (Or.inr (Or.inl (by simp [typeofJS])))]
      | func i => rw [evaluateLibFull_gate _ _ (Or.inr (Or.inl (by simp [typeofJS])))]
      | undef => rw [evaluateLibFull_gate _ _ (Or.inl (by simp [jsTruthy]))]
      | arr elems => rw [evaluateLibFull_gate _ _ (Or.inr (Or.inr (by simp [isArrayJS])))]
      | obj props =>
        rw [evaluateLibFull_obj_step]
        cases hv : validateVariablesLib props with
        | error m => rfl
        | ok u =>
          dsimp only
          cases hp : parseStr libParseCfg src with
          | error m => rfl
          | ok e =>
            dsimp only
            cases hi : validateIdentifiersLib (freeVarsList e) props with
            | error m => rfl
            | ok u2 =>
              dsimp only
              rcases hev : evalE [] evalFuel e ⟨props, [], []⟩ with ⟨r, s⟩
              have hvars : s.vars = props := by
                have hx := (evalState_vars_preserved [] evalFuel).1 e ⟨props, [], []⟩
                rw [hev] at hx
                exact hx
              cases r <;> simp [hvars]
  · intro reg n e s
    exact (evalState_vars_preserved reg n).1 e s

/-- Two evaluation outcomes agree when both succeed with the same value or
both throw (error texts may differ between the two wrappers). -/
def agreeRes (a b : Except String JSVal) : Prop :=
  (∃ r, a = .ok r ∧ b = .ok r) ∨ ((∃ m, a = .error m) ∧ (∃ m, b = .error m))

/-- C9 (counterexample): the claim asserts the two wrapper implementations
agree on every input, in particular when the variables argument is omitted
(`undefined`) — but there `src/lib/safe-evaluator.js` throws
`Variables must be an object` while `src/unnamed/part_000` defaults the
argument to `{}` and returns a value. -/
theorem claim_C9_counterexample :
    evaluateLib (.str "5 + 5") .undef = .error "Variables must be an object" ∧
    evaluateAlt (.str "5 + 5") .undef = .ok (.num 10) :=
  ⟨by rfl, by rfl⟩

/-- C9 (amended): the two evaluate implementations agree — same value or
both throw — whenever the variables argument is a plain (non-array,
non-omitted) object and the expression parses identically under the two
parser configurations; the configurations differ exactly in the `not` unary
operator (kept by lib, removed by part_000) and the constants registry
(cleared by lib, left at its defaults — `PI`, `E`, `true`, `false` — by
part_000), and the wrappers additionally diverge on omitted/`undefined` and
array variables arguments. -/
theorem claim_C9_amended (src : String) (props : List (String × JSVal))
    (hparse : parseStr libParseCfg src = parseStr altParseCfg src) :
    agreeRes (evaluateLib (.str src) (.obj props)) (evaluateAlt (.str src) (.obj props)) := by
  rw [evaluateLib_obj_step, evaluateAlt_obj_step, ← hparse]
  cases hv : validateVariablesLib props with
  | error m =>
    cases hv2 : validateVariables props with
    | error m2 => exact Or.inr ⟨⟨m, rfl⟩, ⟨m2, rfl⟩⟩
    | ok u =>
      exfalso
      cases u
      have hall := (validateVariables_ok_iff props).mp hv2
      have hh := (validateVariablesLib_ok_iff props).mpr hall
      rw [hv] at hh
      cases hh
  | ok u =>
    cases u
    cases hv2 : validateVariables props with
    | error m2 =>
      exfalso
      have hall := (validateVariablesLib_ok_iff props).mp hv
      have hh := (validateVariables_ok_iff props).mpr hall
      rw [hv2] at hh
      cases hh
    | ok u2 =>
      cases u2
      dsimp only
      cases hp : parseStr libParseCfg src with
      | error m => exact Or.inr ⟨⟨_, rfl⟩, ⟨_, rfl⟩⟩
      | ok e =>
        dsimp only
        cases hi : validateIdentifiersLib (freeVarsList e) props with
        | error m =>
          cases hi2 : validateIdentifiers (freeVarsList e) props with
          | error m2 => exact Or.inr ⟨⟨m, rfl⟩, ⟨m2, rfl⟩⟩
          | ok u3 =>
            exfalso
            cases u3
            have hall := (validateIdentifiers_ok_iff (freeVarsList e) props).mp hi2
            have hh := (validateIdentifiersLib_ok_iff (freeVarsList e) props).mpr hall
            rw [hi] at hh
            cases hh
        | ok u3 =>
          cases u3
          cases hi2 : validateIdentifiers (freeVarsList e) props with
          | error m2 =>
            exfalso
            have hall := (validateIdentifiersLib_ok_iff (freeVarsList e) props).mp hi
            have hh := (validateIdentifiers_ok_iff (freeVarsList e) props).mpr hall
            rw [hi2] at hh
            cases hh
          | ok u4 =>
            cases u4
            dsimp only
            cases hev : (evalE [] evalFuel e ⟨props, [], []⟩).1 with
            | error m => exact Or.inr ⟨⟨_, rfl⟩, ⟨_, rfl⟩⟩
            | ok v => exact Or.inl ⟨v, rfl, rfl⟩

/-- Witness for C9 at a concrete input on which the two parses coincide. -/
theorem claim_C9_amended_witness :
    agreeRes (evaluateLib (.str "x + 1") (.obj [("x", .num 2)]))
      (evaluateAlt (.str "x + 1") (.obj [("x", .num 2)])) :=
  claim_C9_amended "x + 1" [("x", .num 2)] (by rfl)
